import Mathlib

/-
Verification of the donation-ticket lifecycle of the Donation-website
repository: a shallow embedding of the validation/redemption handler
(src/validate_ticket/lambda_function.py), the payment-completion webhook
handler (src/handle_stripe_webhook/lambda_function.py) and the pending
record creation (src/ProcessDonation/lambda_function.py), together with
theorems about the ticket state machine, the redemption concurrency
control and the expiry computation.

Timestamps are modelled as UTC epoch seconds (Nat); DynamoDB items are
modelled by the `Record` structure, with attributes that may be absent
modelled as `Option` (the handlers read them with `.get(key, default)`,
which the embedding mirrors with `Option.getD`).  Only the attributes the
handlers read or write are modelled.
-/

namespace Donation

/-- The status value written by the webhook handler on completion. -/
def completedStatus : String := "completed"

/-- The status value written by ProcessDonation at record creation. -/
def pendingStatus : String := "pending"

/-- The Stripe event type handled by the webhook handler. -/
def checkoutSessionCompleted : String := "checkout.session.completed"

/-- The body status field of a successful webhook response. -/
def successBody : String := "success"

/-- The body status field of an error webhook response. -/
def errorBody : String := "error"

/-- The webhook error message when no record matches the session id. -/
def msgRecordNotFound : String := "Donation record not found"

/-- The webhook error message when the database update raises. -/
def msgInternalServerError : String := "Internal server error"

/-- The default payer name used when the Stripe session carries none. -/
def defaultPayerName : String := "N/A"

/-- A DynamoDB item of the DonationRecords table, restricted to the
attributes the handlers read or write.  `redeemed` is read with default
`False` (validate_ticket line 66), so an absent attribute is modelled as
`false`; `expirationTime` and `creationTime` are read with default `0`
(lines 68-69), modelled as `Option Nat` with `getD 0` at the read site. -/
structure Record where
  donationId : String
  checkoutSessionId : String
  status : Option String
  verificationId : Option String
  amount : Option Nat
  payerEmail : Option String
  payerName : Option String
  redeemed : Bool
  redeemedTime : Option Nat
  expirationTime : Option Nat
  creationTime : Option Nat
deriving DecidableEq, Repr

/-- Branch tags for the reason strings produced by validate_ticket; each
constructor corresponds to exactly one assignment of `reason` in the
handler (lines 78, 85, 94, 101, 107, 126, 137, 145). -/
inductive Reason where
  | statusNotCompleted
  | alreadyRedeemed (redeemedTime : Option Nat)
  | expired
  | twoHourWindowExceeded
  | ticketValid
  | validAndRedeemed
  | redeemedConcurrently
  | internalRedemptionError
deriving DecidableEq, Repr

/-- The advisory validity verdict computed by the rule chain. -/
structure Verdict where
  is_valid : Bool
  reason : Reason
deriving DecidableEq, Repr

/-- The end of the 2-hour validation window (validate_ticket line 75). -/
def two_hour_window_end_time (creationTime : Nat) : Nat :=
  creationTime + 2 * 60 * 60

/-- The ordered validation rule chain of validate_ticket lines 81-108:
(1) status not completed, (2) already redeemed, (3) past expirationTime,
(4) past the 2-hour window, else valid; elif chaining short-circuits. -/
def evaluate (item : Record) (now : Nat) : Verdict :=
  if item.status ≠ some completedStatus then
    ⟨false, .statusNotCompleted⟩
  else if item.redeemed then
    ⟨false, .alreadyRedeemed item.redeemedTime⟩
  else if now > item.expirationTime.getD 0 then
    ⟨false, .expired⟩
  else if now > two_hour_window_end_time (item.creationTime.getD 0) then
    ⟨false, .twoHourWindowExceeded⟩
  else
    ⟨true, .ticketValid⟩

/-- The actionTaken values of validate_ticket (lines 79, 125, 138, 146). -/
inductive Action where
  | none
  | redeemed
  | failed_redeem_concurrent
  | failed_redeem_general
deriving DecidableEq, Repr

/-- The possible outcomes of the conditional update_item call of
validate_ticket lines 115-124: success, a ClientError with code
ConditionalCheckFailedException (caught at line 134), a ClientError with
any other code (re-raised at line 141, caught by the outer handler at
line 169), or any other exception (caught at line 142). -/
inductive WriteOutcome where
  | ok
  | conditionalCheckFailed
  | otherClientError
  | otherException
deriving DecidableEq, Repr

/-- The response of the validation endpoint, restricted to the fields the
claims are about: the 404 not-found response (line 58), the 500 response
of the outer exception handler (line 173), or the 200 response carrying
the verdict, action and redemption state (lines 150-167). -/
inductive ValidateResult where
  | notFound
  | internalError
  | verdict (is_valid : Bool) (reason : Reason) (actionTaken : Action)
      (redeemed : Bool) (redeemedTime : Option Nat)
deriving DecidableEq, Repr

/-- Lookup through the verificationId-index GSI; the handler takes the
first returned item (validate_ticket lines 49-61). -/
def findByVerificationId (store : List Record) (vid : String) : Option Record :=
  store.find? fun r => r.verificationId = some vid

/-- The effect of the conditional redemption write on the table: the item
keyed by `donationId` gets `redeemed = true` and `redeemedTime` set; no
other attribute changes (UpdateExpression of line 117). -/
def markRedeemed (store : List Record) (donationId : String) (t : Nat) : List Record :=
  store.map fun r =>
    if r.donationId = donationId then
      { r with redeemed := true, redeemedTime := some t }
    else r

/-- The validation/redemption handler (validate_ticket lambda_handler,
lines 49-167), as a function of the table, the requested verification id,
the current time, the redemption timestamp, and the outcome of the
conditional write (which in a sequential run is exogenous: conflicts
arise from concurrent interference, failures from the storage layer). -/
def validate_ticket (store : List Record) (verification_id : String)
    (now redeem_timestamp : Nat) (w : WriteOutcome) :
    ValidateResult × List Record :=
  match findByVerificationId store verification_id with
  | Option.none => (.notFound, store)
  | Option.some item =>
    let v := evaluate item now
    if v.is_valid then
      match w with
      | .ok =>
          (.verdict true .validAndRedeemed .redeemed true (some redeem_timestamp),
           markRedeemed store item.donationId redeem_timestamp)
      | .conditionalCheckFailed =>
          (.verdict false .redeemedConcurrently .failed_redeem_concurrent
             item.redeemed item.redeemedTime, store)
      | .otherClientError =>
          (.internalError, store)
      | .otherException =>
          (.verdict false .internalRedemptionError .failed_redeem_general
             item.redeemed item.redeemedTime, store)
    else
      (.verdict false v.reason .none item.redeemed item.redeemedTime, store)

/-- The fields of a Stripe checkout session consumed by the webhook
handler (id, customer_details.email, customer_details.name). -/
structure Session where
  id : String
  customer_email : Option String
  customer_name : Option String
deriving DecidableEq, Repr

/-- The expiry computation of handle_stripe_webhook lines 73-75:
`tomorrow_utc = now_utc + timedelta(days=1)` and the expiry is
`datetime.combine(tomorrow_utc.date(), time(5, 0), tzinfo=utc)`.  On UTC
epoch seconds, the date of an instant `t` starts at `(t / 86400) * 86400`
and 05:00 on that date is 5*60*60 seconds later. -/
def expiration_timestamp (now_utc : Nat) : Nat :=
  ((now_utc + 86400) / 86400) * 86400 + 5 * 60 * 60

/-- The webhook handler response, restricted to the status code and the
body fields used (the 400 signature-failure response has no body). -/
structure WebhookResponse where
  statusCode : Nat
  bodyStatus : Option String
  bodyMessage : Option String
deriving DecidableEq, Repr

/-- Lookup through the checkoutSessionId-index GSI; the handler takes the
first returned item (handle_stripe_webhook lines 77-87). -/
def findBySessionId (store : List Record) (sid : String) : Option Record :=
  store.find? fun r => r.checkoutSessionId = sid

/-- The effect of the completion update on the table (handle_stripe_webhook
lines 90-111): the item keyed by `donationId` gets status, verificationId,
expirationTime, redeemed=false, creationTime and payer identity set;
`redeemedTime` is not among the updated attributes and keeps its value. -/
def completeRecord (store : List Record) (donationId verification_id : String)
    (expirationTs creationTs : Nat) (email customer_name : Option String) :
    List Record :=
  store.map fun r =>
    if r.donationId = donationId then
      { r with
          status := some completedStatus,
          verificationId := some verification_id,
          expirationTime := some expirationTs,
          redeemed := false,
          creationTime := some creationTs,
          payerEmail := email,
          payerName := some (customer_name.getD defaultPayerName) }
    else r

/-- The webhook handler (handle_stripe_webhook lambda_handler): signature
failure returns 400 (line 56); a non-completion event is ignored with a
200 success (line 122); an unknown session id returns 200 with an error
body and no mutation (lines 82-84); otherwise the completion update runs
and, if it raises, the except block returns 200 with an error body and no
mutation (lines 116-120).  `sig_ok` models whether construct_event
succeeds and `update_ok` whether the try block reaches line 122. -/
def handle_stripe_webhook (sig_ok : Bool) (event_type : String)
    (session : Session) (store : List Record) (verification_id : String)
    (now_utc : Nat) (update_ok : Bool) : WebhookResponse × List Record :=
  if ¬ sig_ok then (⟨400, none, none⟩, store)
  else if event_type = checkoutSessionCompleted then
    match findBySessionId store session.id with
    | Option.none => (⟨200, some errorBody, some msgRecordNotFound⟩, store)
    | Option.some donation_item =>
      if update_ok then
        (⟨200, some successBody, none⟩,
         completeRecord store donation_item.donationId verification_id
           (expiration_timestamp now_utc) now_utc
           session.customer_email session.customer_name)
      else
        (⟨200, some errorBody, some msgInternalServerError⟩, store)
  else (⟨200, some successBody, none⟩, store)

/-- string.ascii_uppercase, as used by generate_short_id. -/
def ascii_uppercase : String := "ABCDEFGHIJKLMNOPQRSTUVWXYZ"

/-- The code alphabet of generate_short_id (handle_stripe_webhook line
36): `string.ascii_uppercase + '23456789'`. -/
def short_id_alphabet : String := ascii_uppercase ++ "23456789"

/-- The code alphabet as a list of characters. -/
def short_id_characters : List Char := short_id_alphabet.toList

/-- generate_short_id (handle_stripe_webhook lines 34-38) with the default
length 7: `random.choices(characters, k=7)` draws 7 indices into the
alphabet; the draw is modelled by the function `choices`. -/
def generate_short_id (choices : Fin 7 → Fin short_id_characters.length) :
    List Char :=
  (List.finRange 7).map fun i => short_id_characters.get (choices i)

/-- The pending record written by ProcessDonation lines 77-89 (the
attributes of `item_to_save` that the two handlers later read). -/
def pendingRecord (donationId checkoutSessionId : String) (amount : Nat)
    (payerEmail : String) : Record :=
  { donationId := donationId
    checkoutSessionId := checkoutSessionId
    status := some pendingStatus
    verificationId := none
    amount := some amount
    payerEmail := some payerEmail
    payerName := none
    redeemed := false
    redeemedTime := none
    expirationTime := none
    creationTime := none }

/-- DynamoDB put_item: replaces any item with the same primary key
(ProcessDonation line 89). -/
def put_item (store : List Record) (r : Record) : List Record :=
  store.filter (fun x => x.donationId ≠ r.donationId) ++ [r]

/-- The three record-store operations of the lifecycle: createPending
(ProcessDonation), completePurchase (the webhook handler, with a verified
signature and a completion event), and redeem (the validation handler). -/
inductive Op where
  | create (donationId checkoutSessionId : String) (amount : Nat)
      (payerEmail : String)
  | complete (session : Session) (verification_id : String) (now_utc : Nat)
      (update_ok : Bool)
  | redeem (verification_id : String) (now redeem_timestamp : Nat)
      (w : WriteOutcome)

/-- The state transition of one operation on the table. -/
def applyOp (store : List Record) (op : Op) : List Record :=
  match op with
  | .create d cs amt em => put_item store (pendingRecord d cs amt em)
  | .complete sess vid t ok =>
      (handle_stripe_webhook true checkoutSessionCompleted sess store vid t ok).2
  | .redeem vid now ts w => (validate_ticket store vid now ts w).2

/-- The table reached by a sequence of operations from the empty table. -/
def runOps (ops : List Op) : List Record := ops.foldl applyOp []

/-- The donationId attribute is the primary key of the DonationRecords
table, so the stored items have pairwise distinct donationIds. -/
def keysNodup (store : List Record) : Prop :=
  (store.map fun r => r.donationId).Nodup

/-- The record-level invariant: a redeemed record has completed status
and a redemption time. -/
def recordInv (r : Record) : Prop :=
  r.redeemed = true → r.status = some completedStatus ∧ r.redeemedTime ≠ none

/-- The table invariant maintained by the operations: distinct primary
keys and every record satisfies recordInv. -/
def tableInv (store : List Record) : Prop :=
  keysNodup store ∧ ∀ r ∈ store, recordInv r

/-- The expiry rule as the specification words it: take the completion
instant in UTC, add one calendar day, and set the clock to 05:00:00 UTC
on the resulting date.  On UTC epoch seconds the date of an instant `t`
is day number `t / 86400` (days since the epoch), so the resulting
deadline is day `t / 86400 + 1` at 05:00:00. -/
def spec_expiresAt (completion : Nat) : Nat :=
  (completion / 86400 + 1) * 86400 + 5 * 60 * 60

/-- The digits allowed in the code alphabet besides the uppercase
letters. -/
def digit_characters : List Char := "23456789".toList

/-- A draw for generate_short_id that always picks index 14, the letter O
of the alphabet. -/
def pickO : Fin 7 → Fin short_id_characters.length := fun _ => ⟨14, by decide⟩

/-- A draw for generate_short_id that always picks index 8, the letter I
of the alphabet. -/
def pickI : Fin 7 → Fin short_id_characters.length := fun _ => ⟨8, by decide⟩

/-- Sample data used by concrete instances below. -/
def dA : String := "d1"

/-- Sample checkout session id. -/
def csA : String := "cs1"

/-- Sample payer email. -/
def emailA : String := "a@b.example"

/-- Sample payer name. -/
def nameA : String := "Alice"

/-- Sample verification code. -/
def codeA : String := "CODE222"

/-- Sample verification code for a duplicate completion delivery. -/
def codeB : String := "CODE333"

/-- Sample Stripe checkout session. -/
def sessA : Session := ⟨csA, some emailA, some nameA⟩

/-- A sample completed, unredeemed record: completed at time 1000, so the
2-hour window ends at 8200 and the general expiry (written by the webhook
model for completion instant 1000) is 104400. -/
def rA : Record :=
  { donationId := dA
    checkoutSessionId := csA
    status := some completedStatus
    verificationId := some codeA
    amount := some 500
    payerEmail := some emailA
    payerName := some nameA
    redeemed := false
    redeemedTime := none
    expirationTime := some 104400
    creationTime := some 1000 }

/-- The record rA after a redemption at time 1600. -/
def rRedeemed : Record := { rA with redeemed := true, redeemedTime := some 1600 }

/-- A sample pending record (as written by ProcessDonation). -/
def rPending : Record := pendingRecord dA csA 500 emailA

/-- The operation sequence: create a pending record, complete it at time
1000, redeem it at time 1500 (write timestamp 1600), then a duplicate
delivery of the completion event at time 2000 with a fresh code. -/
def opsDup : List Op :=
  [ .create dA csA 500 emailA,
    .complete sessA codeA 1000 true,
    .redeem codeA 1500 1600 .ok,
    .complete sessA codeB 2000 true ]

/-- The first three operations of opsDup: create, complete, redeem. -/
def opsRedeem3 : List Op :=
  [ .create dA csA 500 emailA,
    .complete sessA codeA 1000 true,
    .redeem codeA 1500 1600 .ok ]

/-- The record reached by opsRedeem3: completed at 1000 and redeemed at
1600. -/
def rAfterRedeem : Record :=
  { donationId := dA
    checkoutSessionId := csA
    status := some completedStatus
    verificationId := some codeA
    amount := some 500
    payerEmail := some emailA
    payerName := some nameA
    redeemed := true
    redeemedTime := some 1600
    expirationTime := some 104400
    creationTime := some 1000 }

/-- The local state of one concurrent redemption attempt: not yet run;
read the record and found it valid, about to issue the conditional
write; or finished with a verdict validity flag and an actionTaken. -/
inductive AttemptState where
  | start
  | ready
  | done (is_valid : Bool) (actionTaken : Action)
deriving DecidableEq, Repr

/-- A configuration of the redemption race on one record: the stored
record and the local state of each of the n attempts.  The Lambda
invocations share no memory (each attempt only has its own phase), so the
only interaction is through the stored record. -/
structure RaceConfig (n : Nat) where
  store : Record
  att : Fin n → AttemptState

/-- One atomic step of attempt i.  An attempt first reads and evaluates
the record (validate_ticket lines 49-108): if the verdict is invalid it
finishes with action none and never writes; if valid it proceeds to the
conditional write.  The write (lines 111-139) is the single atomic
compare-and-set of the design: it succeeds only if `redeemed` is still
false in the store (the ConditionExpression of line 118), setting
`redeemed` and `redeemedTime`; if the condition fails the attempt
finishes invalid with action failed_redeem_concurrent (lines 133-139).
Exogenous storage failures are modelled separately (see WriteOutcome);
the race assumes the storage layer itself does not fail. -/
def attemptStep {n : Nat} (now rts : Fin n → Nat) (c : RaceConfig n)
    (i : Fin n) : RaceConfig n :=
  match c.att i with
  | .start =>
      if (evaluate c.store (now i)).is_valid then
        { c with att := fun j => if j = i then .ready else c.att j }
      else
        { c with att := fun j => if j = i then .done false .none else c.att j }
  | .ready =>
      if c.store.redeemed = false then
        { store := { c.store with redeemed := true, redeemedTime := some (rts i) },
          att := fun j => if j = i then .done true .redeemed else c.att j }
      else
        { c with att := fun j =>
            if j = i then .done false .failed_redeem_concurrent else c.att j }
  | .done _ _ => c

/-- Interleaved execution of the race: runs the steps of the listed
attempts in order. -/
def race {n : Nat} (now rts : Fin n → Nat) (c : RaceConfig n)
    (σ : List (Fin n)) : RaceConfig n :=
  σ.foldl (attemptStep now rts) c

/-- The initial configuration: the stored record is r0 and no attempt has
run. -/
def initRace (n : Nat) (r0 : Record) : RaceConfig n :=
  ⟨r0, fun _ => .start⟩

/-- A record that passes the validity evaluation has status completed and
is not redeemed (rules 1 and 2 of the chain did not fire). -/
theorem evaluate_valid_fields (r : Record) (t : Nat)
    (h : (evaluate r t).is_valid = true) :
    r.status = some completedStatus ∧ r.redeemed = false := by
  by_cases h1 : r.status = some completedStatus
  · by_cases h2 : r.redeemed
    · exfalso
      simp [evaluate, h1, h2] at h
    · exact ⟨h1, by simpa using h2⟩
  · exfalso
    simp [evaluate, h1] at h

/-- A redeemed record never passes the validity evaluation: rule 1 or
rule 2 fires first. -/
theorem evaluate_of_redeemed (r : Record) (t : Nat) (h : r.redeemed = true) :
    (evaluate r t).is_valid = false := by
  by_cases h1 : r.status = some completedStatus
  · simp [evaluate, h1, h]
  · simp [evaluate, h1]

/-- C2: the validity evaluation applies the four rules in order with
short-circuit: (1) a record whose status is not completed is invalid with
the payment-not-completed reason, regardless of time; (2) otherwise a
redeemed record is invalid with the already-redeemed reason; (3)
otherwise a record past its expirationTime is invalid with the expired
reason, whether or not the 2-hour window has also passed; (4) otherwise a
record past the 2-hour window is invalid with the window reason; and
otherwise the record is valid. -/
theorem rule_order_eval (item : Record) (now : Nat) :
    (item.status ≠ some completedStatus →
      evaluate item now = ⟨false, .statusNotCompleted⟩)
    ∧ (item.status = some completedStatus → item.redeemed = true →
      evaluate item now = ⟨false, .alreadyRedeemed item.redeemedTime⟩)
    ∧ (item.status = some completedStatus → item.redeemed = false →
      now > item.expirationTime.getD 0 →
      evaluate item now = ⟨false, .expired⟩)
    ∧ (item.status = some completedStatus → item.redeemed = false →
      now ≤ item.expirationTime.getD 0 →
      now > two_hour_window_end_time (item.creationTime.getD 0) →
      evaluate item now = ⟨false, .twoHourWindowExceeded⟩)
    ∧ (item.status = some completedStatus → item.redeemed = false →
      now ≤ item.expirationTime.getD 0 →
      now ≤ two_hour_window_end_time (item.creationTime.getD 0) →
      evaluate item now = ⟨true, .ticketValid⟩) := by
  refine ⟨fun h1 => by simp [evaluate, h1], ?_, ?_, ?_, ?_⟩
  · intro h1 h2
    simp [evaluate, h1, h2]
  · intro h1 h2 h3
    simp [evaluate, h1, h2, h3]
  · intro h1 h2 h3 h4
    simp [evaluate, h1, h2, not_lt.mpr h3, h4]
  · intro h1 h2 h3 h4
    simp [evaluate, h1, h2, not_lt.mpr h3, not_lt.mpr h4]

/-- Witness for rule_order_eval: a pending record is invalid at time 0
with the payment-not-completed reason, and the completed record rA
evaluated one second past its expirationTime but inside the 2-hour
window is invalid with the expired reason of rule 3. -/
theorem rule_order_eval_witness :
    evaluate rPending 0 = ⟨false, .statusNotCompleted⟩
    ∧ evaluate { rA with creationTime := some 100000 } 104401 =
        ⟨false, .expired⟩ := by
  constructor
  · exact (rule_order_eval rPending 0).1 (by decide)
  · exact (rule_order_eval { rA with creationTime := some 100000 } 104401).2.2.1
      (by decide) (by decide) (by decide)

/-- C4: the expiry written at completion time is exactly the calendar
rule of the specification: one calendar day after the completion instant,
at 05:00:00 UTC on the resulting date.  In particular it is not 24 hours
after the completion instant (second conjunct, at the completion instant
2024-01-10T23:00:00Z). -/
theorem expiry_calendar_aligned :
    (∀ completion : Nat,
      expiration_timestamp completion = spec_expiresAt completion)
    ∧ expiration_timestamp 1704927600 ≠ 1704927600 + 86400 := by
  constructor
  · intro completion
    unfold expiration_timestamp spec_expiresAt
    rw [Nat.add_div_right _ (by norm_num)]
  · decide

/-- C5 counterexample: the claimed expiry for a completion instant of
2024-01-10T23:00:00Z (epoch 1704927600) is 2024-01-12T05:00:00Z (epoch
1705035600), but the code computes 2024-01-11T05:00:00Z instead. -/
theorem expiry_claim_value_wrong :
    expiration_timestamp 1704927600 ≠ 1705035600 := by decide

/-- C5 amended: the expiry for a completion instant of
2024-01-10T23:00:00Z (epoch 1704927600) is 2024-01-11T05:00:00Z (epoch
1704949200), and the expiry for a completion instant of
2024-01-10T02:00:00Z (epoch 1704852000) is also 2024-01-11T05:00:00Z. -/
theorem expiry_examples :
    expiration_timestamp 1704927600 = 1704949200
    ∧ expiration_timestamp 1704852000 = 1704949200 := by decide

/-- C8: a completion event whose session id matches no stored record is
acknowledged with status 200 (an error marker only in the body) and the
table is not mutated. -/
theorem webhook_unknown_session_acknowledged (store : List Record)
    (sess : Session) (vid : String) (t : Nat) (ok : Bool)
    (h : findBySessionId store sess.id = none) :
    handle_stripe_webhook true checkoutSessionCompleted sess store vid t ok =
      (⟨200, some errorBody, some msgRecordNotFound⟩, store) := by
  simp [handle_stripe_webhook, h]

/-- Witness for webhook_unknown_session_acknowledged: the empty table. -/
theorem webhook_unknown_session_acknowledged_witness :
    handle_stripe_webhook true checkoutSessionCompleted sessA [] codeA 1000 true =
      (⟨200, some errorBody, some msgRecordNotFound⟩, []) :=
  webhook_unknown_session_acknowledged [] sessA codeA 1000 true (by decide)

/-- C10: when the completion update raises, the webhook handler still
returns status 200 with only an error marker in the body, and the table
is not mutated (so a pending record stays pending with no verification
code assigned). -/
theorem webhook_update_failure_returns_200 (store : List Record)
    (sess : Session) (vid : String) (t : Nat) (item : Record)
    (h : findBySessionId store sess.id = some item) :
    handle_stripe_webhook true checkoutSessionCompleted sess store vid t false =
      (⟨200, some errorBody, some msgInternalServerError⟩, store) := by
  simp [handle_stripe_webhook, h]

/-- Witness for webhook_update_failure_returns_200: a table holding one
pending record for the session; the response is a 200 with the error
body and the record is untouched (still pending, no code). -/
theorem webhook_update_failure_returns_200_witness :
    handle_stripe_webhook true checkoutSessionCompleted sessA [rPending] codeA 1000 false =
      (⟨200, some errorBody, some msgInternalServerError⟩, [rPending]) :=
  webhook_update_failure_returns_200 [rPending] sessA codeA 1000 rPending (by decide)

/-- C6 counterexample: a ClientError other than the conditional-check
failure raised by the redemption write (modelled by
WriteOutcome.otherClientError, re-raised at validate_ticket line 141 and
caught by the outer handler at line 169) produces the 500
internal-server-error response, which carries no action field at all —
not a verdict with action failed_redeem_general as the claim states for
every unexpected storage failure. -/
theorem client_error_write_failure_is_500 :
    validate_ticket [rA] codeA 1500 1600 .otherClientError =
      (.internalError, [rA])
    ∧ ∀ is_valid reason redeemed redeemedTime,
        (validate_ticket [rA] codeA 1500 1600 .otherClientError).1 ≠
          .verdict is_valid reason .failed_redeem_general redeemed redeemedTime := by
  constructor
  · decide
  · intro is_valid reason redeemed redeemedTime h
    have heq : (validate_ticket [rA] codeA 1500 1600 .otherClientError).1 =
        .internalError := by decide
    rw [heq] at h
    simp at h

/-- C6 amended: when the record is found and evaluates as valid, a
conditional-check conflict on the redemption write overwrites the verdict
to invalid with the redeemed-concurrently reason and action
failed_redeem_concurrent; a non-ClientError exception during the write
yields an invalid verdict with the internal-redemption-error reason and
action failed_redeem_general; and a ClientError with any other code is
re-raised and surfaces as the structured 500 internal-error response
(with no action field).  In every case the caller receives a structured
result and the table is not mutated. -/
theorem redeem_write_failure_results (store : List Record) (vid : String)
    (now ts : Nat) (item : Record)
    (hfind : findByVerificationId store vid = some item)
    (hval : (evaluate item now).is_valid = true) :
    validate_ticket store vid now ts .conditionalCheckFailed =
      (.verdict false .redeemedConcurrently .failed_redeem_concurrent
        item.redeemed item.redeemedTime, store)
    ∧ validate_ticket store vid now ts .otherException =
      (.verdict false .internalRedemptionError .failed_redeem_general
        item.redeemed item.redeemedTime, store)
    ∧ validate_ticket store vid now ts .otherClientError =
      (.internalError, store) := by
  refine ⟨?_, ?_, ?_⟩ <;> simp [validate_ticket, hfind, hval]

/-- Witness for redeem_write_failure_results: the valid record rA at
time 1500. -/
theorem redeem_write_failure_results_witness :
    validate_ticket [rA] codeA 1500 1600 .conditionalCheckFailed =
      (.verdict false .redeemedConcurrently .failed_redeem_concurrent
        false none, [rA])
    ∧ validate_ticket [rA] codeA 1500 1600 .otherException =
      (.verdict false .internalRedemptionError .failed_redeem_general
        false none, [rA]) :=
  ⟨(redeem_write_failure_results [rA] codeA 1500 1600 rA (by decide) (by decide)).1,
   (redeem_write_failure_results [rA] codeA 1500 1600 rA (by decide) (by decide)).2.1⟩

/-- C7: a redemption call never mutates the table unless the record is
found and evaluates as valid: an unknown code yields the terminal
not-found result with the table unchanged; a found record that evaluates
as invalid yields that invalid verdict as-is with action none and the
table unchanged (for every write outcome, since the write is never
attempted).  In particular a second redemption attempt on the record
redeemed at time 1600, made at time 2200, returns an invalid verdict with
the already-redeemed reason and action none, leaving the table
unchanged. -/
theorem no_mutation_when_invalid (store : List Record) (vid : String)
    (now ts : Nat) (w : WriteOutcome) :
    (findByVerificationId store vid = none →
      validate_ticket store vid now ts w = (.notFound, store))
    ∧ (∀ item, findByVerificationId store vid = some item →
      (evaluate item now).is_valid = false →
      validate_ticket store vid now ts w =
        (.verdict false (evaluate item now).reason .none
          item.redeemed item.redeemedTime, store))
    ∧ validate_ticket [rRedeemed] codeA 2200 9999 .ok =
        (.verdict false (.alreadyRedeemed (some 1600)) .none
          true (some 1600), [rRedeemed]) := by
  refine ⟨?_, ?_, by decide⟩
  · intro h
    simp [validate_ticket, h]
  · intro item hfind hval
    simp [validate_ticket, hfind, hval]

/-- Witness for no_mutation_when_invalid: the empty table gives the
not-found result, and a pending record gives an invalid verdict with
action none and no mutation. -/
theorem no_mutation_when_invalid_witness :
    validate_ticket [] codeA 1500 1600 .ok = (.notFound, [])
    ∧ validate_ticket [{ rPending with verificationId := some codeA }]
        codeA 1500 1600 .ok =
      (.verdict false .statusNotCompleted .none false none,
        [{ rPending with verificationId := some codeA }]) :=
  ⟨(no_mutation_when_invalid [] codeA 1500 1600 .ok).1 (by decide),
   (no_mutation_when_invalid [{ rPending with verificationId := some codeA }]
      codeA 1500 1600 .ok).2.1
      { rPending with verificationId := some codeA } (by decide) (by decide)⟩

/-- C9 counterexample: the code alphabet is the full uppercase range plus
the digits 2-9, so it contains the visually ambiguous letters O and I,
and generate_short_id can produce codes consisting of them — the claim
that the alphabet excludes O and I is false. -/
theorem short_id_contains_confusables :
    'O' ∈ short_id_characters
    ∧ 'I' ∈ short_id_characters
    ∧ 'O' ∈ generate_short_id pickO
    ∧ 'I' ∈ generate_short_id pickI := by decide

/-- C9 amended: every generated code has exactly 7 characters, each drawn
from the alphabet of uppercase letters plus the digits 2-9; the alphabet
excludes lowercase letters and the digits 0 and 1 (but it does contain
the letters O and I). -/
theorem short_id_shape (choices : Fin 7 → Fin short_id_characters.length) :
    (generate_short_id choices).length = 7
    ∧ (∀ ch ∈ generate_short_id choices, ch ∈ short_id_characters)
    ∧ (∀ ch ∈ short_id_characters,
        (ch.isUpper = true ∨ ch ∈ digit_characters)
        ∧ ch.isLower = false ∧ ch ≠ '0' ∧ ch ≠ '1') := by
  refine ⟨by simp [generate_short_id], ?_, by decide⟩
  intro ch hch
  simp only [generate_short_id, List.mem_map] at hch
  obtain ⟨i, _, hi⟩ := hch
  exact hi ▸ List.get_mem short_id_characters (choices i).1 (choices i).2

/-- Witness for short_id_shape: the all-O draw yields a 7-character code
whose first character is in the alphabet, and the alphabet facts hold for
the letter A. -/
theorem short_id_shape_witness :
    (generate_short_id pickO).length = 7
    ∧ 'O' ∈ short_id_characters
    ∧ ('A'.isUpper = true ∨ 'A' ∈ digit_characters) :=
  ⟨(short_id_shape pickO).1,
   (short_id_shape pickO).2.1 'O' (by decide),
   ((short_id_shape pickO).2.2 'A' (by decide)).1⟩


/-- Running a race on an appended schedule composes. -/
theorem race_append {n : Nat} (now rts : Fin n → Nat) (c : RaceConfig n)
    (σ₁ σ₂ : List (Fin n)) :
    race now rts c (σ₁ ++ σ₂) = race now rts (race now rts c σ₁) σ₂ :=
  List.foldl_append _ _ _ _

/-- Running a race on a cons schedule takes one step then continues. -/
theorem race_cons {n : Nat} (now rts : Fin n → Nat) (c : RaceConfig n)
    (i : Fin n) (σ : List (Fin n)) :
    race now rts c (i :: σ) = race now rts (attemptStep now rts c i) σ := rfl

/-- Once the stored record is redeemed, no step changes the store: the
evaluation path never writes (rule 2 fires) and the conditional write
fails its condition. -/
theorem attemptStep_store_of_redeemed {n : Nat} (now rts : Fin n → Nat)
    (c : RaceConfig n) (i : Fin n) (h : c.store.redeemed = true) :
    (attemptStep now rts c i).store = c.store := by
  cases hatt : c.att i with
  | start =>
      simp only [attemptStep, hatt, evaluate_of_redeemed _ _ h]
      rfl
  | ready => simp [attemptStep, hatt, h]
  | done v a => simp [attemptStep, hatt]

/-- Once the stored record is redeemed, no schedule changes the store. -/
theorem race_store_of_redeemed {n : Nat} (now rts : Fin n → Nat)
    (σ : List (Fin n)) (c : RaceConfig n) (h : c.store.redeemed = true) :
    (race now rts c σ).store = c.store := by
  induction σ generalizing c with
  | nil => rfl
  | cons i σ ih =>
      rw [race_cons]
      have hs := attemptStep_store_of_redeemed now rts c i h
      rw [ih _ (by rw [hs]; exact h), hs]

/-- A single step either leaves the store unchanged or performs the one
redemption write: from an unredeemed store to the same record with
`redeemed` true and `redeemedTime` set, all other attributes intact. -/
theorem attemptStep_store_cases {n : Nat} (now rts : Fin n → Nat)
    (c : RaceConfig n) (i : Fin n) :
    (attemptStep now rts c i).store = c.store
    ∨ (c.store.redeemed = false ∧ (attemptStep now rts c i).store =
        { c.store with redeemed := true, redeemedTime := some (rts i) }) := by
  cases hatt : c.att i with
  | start =>
      left
      simp only [attemptStep, hatt]
      split <;> rfl
  | ready =>
      by_cases hred : c.store.redeemed = false
      · right
        exact ⟨hred, by simp [attemptStep, hatt, hred]⟩
      · left
        simp [attemptStep, hatt, hred]
  | done v a => left; simp [attemptStep, hatt]

/-- No schedule corrupts the record: the store reached by any
interleaving is either the initial record unchanged, or — only if the
initial record was unredeemed — the same record with `redeemed` true and
some `redeemedTime` set, all other attributes intact. -/
theorem race_store_cases {n : Nat} (now rts : Fin n → Nat)
    (σ : List (Fin n)) (c : RaceConfig n) :
    (race now rts c σ).store = c.store
    ∨ (c.store.redeemed = false ∧ ∃ t, (race now rts c σ).store =
        { c.store with redeemed := true, redeemedTime := some t }) := by
  induction σ generalizing c with
  | nil => left; rfl
  | cons i σ ih =>
      rw [race_cons]
      rcases attemptStep_store_cases now rts c i with hs | ⟨hred, hs⟩
      · rcases ih (attemptStep now rts c i) with h | ⟨hr, t, ht⟩
        · left; rw [h, hs]
        · right
          refine ⟨hs ▸ hr, t, ?_⟩
          rw [ht, hs]
      · right
        refine ⟨hred, rts i, ?_⟩
        rw [race_store_of_redeemed now rts σ _ (by rw [hs]), hs]

/-- The evaluation phase: while all scheduled attempts are in their
evaluation step and the stored record evaluates as valid for each of
them, the store is untouched and each scheduled attempt moves to the
ready state. -/
theorem race_eval_phase {n : Nat} (now rts : Fin n → Nat)
    (σe : List (Fin n)) (c : RaceConfig n) (hnd : σe.Nodup)
    (hstart : ∀ i ∈ σe, c.att i = .start)
    (hval : ∀ i, (evaluate c.store (now i)).is_valid = true) :
    (race now rts c σe).store = c.store
    ∧ ∀ i, (race now rts c σe).att i =
        if i ∈ σe then .ready else c.att i := by
  induction σe generalizing c with
  | nil => exact ⟨rfl, fun i => by simp [race]⟩
  | cons i σ ih =>
      rw [race_cons]
      have hstep : attemptStep now rts c i =
          { c with att := fun j => if j = i then .ready else c.att j } := by
        simp [attemptStep, hstart i (List.mem_cons_self i σ), hval i]
      have hnotmem : i ∉ σ := (List.nodup_cons.mp hnd).1
      obtain ⟨ihs, iha⟩ := ih (attemptStep now rts c i)
        (List.nodup_cons.mp hnd).2
        (by
          intro j hj
          rw [hstep]
          have hji : j ≠ i := fun h => hnotmem (h ▸ hj)
          simpa [hji] using hstart j (List.mem_cons_of_mem i hj))
        (by rw [hstep]; exact hval)
      refine ⟨by rw [ihs, hstep], fun j => ?_⟩
      rw [iha j, hstep]
      by_cases hji : j = i
      · subst hji
        simp [hnotmem]
      · simp [hji, List.mem_cons]

/-- The conflict phase: once the stored record is redeemed, every
scheduled attempt that had found the record valid finishes with action
failed_redeem_concurrent, and finished attempts keep their results. -/
theorem race_write_phase {n : Nat} (now rts : Fin n → Nat)
    (σ : List (Fin n)) (c : RaceConfig n) (hred : c.store.redeemed = true)
    (hns : ∀ i, c.att i ≠ .start) :
    ∀ i, (race now rts c σ).att i =
      if i ∈ σ ∧ c.att i = .ready then .done false .failed_redeem_concurrent
      else c.att i := by
  induction σ generalizing c with
  | nil => intro i; simp [race]
  | cons i₀ σ ih =>
      rw [race_cons]
      intro i
      cases hatt : c.att i₀ with
      | start => exact absurd hatt (hns i₀)
      | ready =>
          have hstep : attemptStep now rts c i₀ =
              { c with att := fun j =>
                  if j = i₀ then .done false .failed_redeem_concurrent
                  else c.att j } := by
            simp [attemptStep, hatt, hred]
          have h2 := ih (attemptStep now rts c i₀)
            (by rw [hstep]; exact hred)
            (by
              intro j
              rw [hstep]
              by_cases hji : j = i₀ <;> simp [hji, hns j]) i
          rw [h2, hstep]
          by_cases hii : i = i₀
          · subst hii
            simp [hatt]
          · simp [hii, List.mem_cons]
      | done v a =>
          have hstep : attemptStep now rts c i₀ = c := by
            simp [attemptStep, hatt]
          rw [hstep, ih c hred hns i]
          by_cases hii : i = i₀
          · subst hii
            simp [hatt]
          · simp [hii, List.mem_cons]

/-- C1: exactly-once redemption under concurrency.  Start n attempts
against a record r0 that each attempt's evaluation finds valid (so all
reads happen before the first write commits: the attempts race on the
conditional write).  The schedule runs all evaluation steps (σe, each
attempt once, in any order), then the write steps in any order, j first.
Then: attempt j — whichever write the storage layer serializes first —
finishes with action redeemed; every other attempt finishes with an
invalid verdict and action failed_redeem_concurrent; no attempt other
than j ever finishes redeemed; the stored record is exactly r0 with
`redeemed` set true and `redeemedTime` set to j's write time, all other
attributes intact.  Moreover, under arbitrary interleavings (any
schedule whatsoever): the store is always either r0 unchanged or r0 with
`redeemed` true and some `redeemedTime` set (no interleaving corrupts the
record), and once `redeemed` is true the store never changes again (the
flag transitions false to true at most once, ever). -/
theorem exactly_once_redemption {n : Nat} (r0 : Record)
    (now rts : Fin n → Nat)
    (hval : ∀ i, (evaluate r0 (now i)).is_valid = true)
    (σe : List (Fin n)) (hnd : σe.Nodup) (hecov : ∀ i, i ∈ σe)
    (j : Fin n) (σw : List (Fin n)) (hwcov : ∀ i, i = j ∨ i ∈ σw) :
    (race now rts (initRace n r0) (σe ++ j :: σw)).att j = .done true .redeemed
    ∧ (∀ i, i ≠ j → (race now rts (initRace n r0) (σe ++ j :: σw)).att i =
        .done false .failed_redeem_concurrent)
    ∧ (∀ i, (race now rts (initRace n r0) (σe ++ j :: σw)).att i =
        .done true .redeemed → i = j)
    ∧ (race now rts (initRace n r0) (σe ++ j :: σw)).store =
        { r0 with redeemed := true, redeemedTime := some (rts j) }
    ∧ (∀ σ : List (Fin n), (race now rts (initRace n r0) σ).store = r0 ∨
        ∃ t, (race now rts (initRace n r0) σ).store =
          { r0 with redeemed := true, redeemedTime := some t })
    ∧ (∀ σ₁ σ₂ : List (Fin n),
        (race now rts (initRace n r0) σ₁).store.redeemed = true →
        (race now rts (initRace n r0) (σ₁ ++ σ₂)).store =
          (race now rts (initRace n r0) σ₁).store) := by
  have hr0red : r0.redeemed = false := (evaluate_valid_fields r0 (now j) (hval j)).2
  obtain ⟨hes, hea⟩ := race_eval_phase now rts σe (initRace n r0) hnd
    (fun i _ => rfl) hval
  have hes' : (race now rts (initRace n r0) σe).store = r0 := hes
  have hready : ∀ i, (race now rts (initRace n r0) σe).att i = .ready := by
    intro i
    rw [hea i]
    simp [hecov i]
  have hstepj : attemptStep now rts (race now rts (initRace n r0) σe) j =
      { store := { r0 with redeemed := true, redeemedTime := some (rts j) },
        att := fun i => if i = j then .done true .redeemed
          else (race now rts (initRace n r0) σe).att i } := by
    simp [attemptStep, hready j, hes', hr0red]
  have hfin : race now rts (initRace n r0) (σe ++ j :: σw) =
      race now rts
        { store := { r0 with redeemed := true, redeemedTime := some (rts j) },
          att := fun i => if i = j then .done true .redeemed
            else (race now rts (initRace n r0) σe).att i } σw := by
    rw [race_append, race_cons, hstepj]
  have hwrite := race_write_phase now rts σw
    { store := { r0 with redeemed := true, redeemedTime := some (rts j) },
      att := fun i => if i = j then .done true .redeemed
        else (race now rts (initRace n r0) σe).att i }
    rfl
    (by
      intro i
      by_cases hij : i = j
      · simp [hij]
      · simp [hij, hready i])
  have hattj : (race now rts (initRace n r0) (σe ++ j :: σw)).att j =
      .done true .redeemed := by
    rw [hfin, hwrite j]
    simp
  have hatti : ∀ i, i ≠ j →
      (race now rts (initRace n r0) (σe ++ j :: σw)).att i =
        .done false .failed_redeem_concurrent := by
    intro i hij
    rcases hwcov i with h | h
    · exact absurd h hij
    · rw [hfin, hwrite i]
      simp [hij, h, hready i]
  refine ⟨hattj, hatti, ?_, ?_, ?_, ?_⟩
  · intro i h
    by_contra hij
    rw [hatti i hij] at h
    simp at h
  · rw [hfin, race_store_of_redeemed now rts σw _ rfl]
  · intro σ
    rcases race_store_cases now rts σ (initRace n r0) with h | ⟨_, t, ht⟩
    · exact Or.inl h
    · exact Or.inr ⟨t, ht⟩
  · intro σ₁ σ₂ h
    rw [race_append]
    exact race_store_of_redeemed now rts σ₂ _ h

/-- Witness for exactly_once_redemption: two concurrent attempts on the
valid record rA, both evaluating at time 1500 before either write; the
first serialized write (attempt 0) redeems, the other gets
failed_redeem_concurrent, and the store is rA redeemed at 1600. -/
theorem exactly_once_redemption_witness :
    (race (fun _ => 1500) (fun _ => 1600) (initRace 2 rA)
        ([0, 1] ++ 0 :: [1])).att 0 = .done true .redeemed
    ∧ (race (fun _ => 1500) (fun _ => 1600) (initRace 2 rA)
        ([0, 1] ++ 0 :: [1])).att 1 = .done false .failed_redeem_concurrent
    ∧ (race (fun _ => 1500) (fun _ => 1600) (initRace 2 rA)
        ([0, 1] ++ 0 :: [1])).store =
      { rA with redeemed := true, redeemedTime := some 1600 } := by
  have h := @exactly_once_redemption 2 rA (fun _ => 1500) (fun _ => 1600)
    (by decide) [0, 1] (by decide) (by decide) 0 [1] (by decide)
  exact ⟨h.1, h.2.1 1 (by decide), h.2.2.2.1⟩

/-- Updating records in place without changing their key preserves key
distinctness. -/
theorem keysNodup_map (store : List Record) (f : Record → Record)
    (hf : ∀ r, (f r).donationId = r.donationId) (h : keysNodup store) :
    keysNodup (store.map f) := by
  unfold keysNodup at *
  rw [List.map_map]
  have hcomp : ((fun r => r.donationId) ∘ f) = fun r : Record => r.donationId :=
    funext fun r => hf r
  rw [hcomp]
  exact h

/-- put_item (replace the item with the same key) preserves key
distinctness. -/
theorem keysNodup_put_item (store : List Record) (r : Record)
    (h : keysNodup store) : keysNodup (put_item store r) := by
  unfold keysNodup put_item at *
  rw [List.map_append]
  refine List.nodup_append.mpr ⟨?_, by simp, ?_⟩
  · exact ((store.filter_sublist).map _).nodup h
  · intro k hk1 hk2
    simp only [List.map_cons, List.map_nil, List.mem_singleton] at hk2
    obtain ⟨x, hx, hkx⟩ := List.mem_map.mp hk1
    have hxp := List.of_mem_filter hx
    simp only [decide_eq_true_eq] at hxp
    exact hxp (hkx.trans hk2 ▸ rfl)

/-- The state effect of the webhook handler on a completion event with a
verified signature: either the table is unchanged, or the record found by
session id is completed in place. -/
theorem webhook_state (sess : Session) (vid : String) (t : Nat) (ok : Bool)
    (store : List Record) :
    (handle_stripe_webhook true checkoutSessionCompleted sess store vid t ok).2 = store
    ∨ ∃ item, findBySessionId store sess.id = some item ∧
      (handle_stripe_webhook true checkoutSessionCompleted sess store vid t ok).2 =
        completeRecord store item.donationId vid (expiration_timestamp t) t
          sess.customer_email sess.customer_name := by
  unfold handle_stripe_webhook
  cases hfind : findBySessionId store sess.id with
  | none => simp
  | some item =>
      cases ok with
      | false => simp
      | true =>
          right
          exact ⟨item, rfl, by simp⟩

/-- The state effect of the validation handler: either the table is
unchanged, or the record found by verification code evaluated as valid,
the write succeeded, and the table is the conditional redemption write
applied in place. -/
theorem validate_state (store : List Record) (vid : String) (now ts : Nat)
    (w : WriteOutcome) :
    (validate_ticket store vid now ts w).2 = store
    ∨ ∃ item, findByVerificationId store vid = some item
        ∧ (evaluate item now).is_valid = true ∧ w = .ok
        ∧ (validate_ticket store vid now ts w).2 =
            markRedeemed store item.donationId ts := by
  unfold validate_ticket
  cases hfind : findByVerificationId store vid with
  | none => simp
  | some item =>
      by_cases hval : (evaluate item now).is_valid
      · cases w with
        | ok => exact Or.inr ⟨item, rfl, hval, rfl, by simp [hval]⟩
        | conditionalCheckFailed => simp [hval]
        | otherClientError => simp [hval]
        | otherException => simp [hval]
      · left
        simp only [Bool.not_eq_true] at hval
        simp [hval]

/-- Each operation preserves the table invariant.  The one interesting
case is the redemption write: it flips `redeemed` to true only on the
record that was just evaluated as valid (hence completed), and sets
`redeemedTime` in the same atomic write. -/
theorem tableInv_applyOp (store : List Record) (op : Op)
    (h : tableInv store) : tableInv (applyOp store op) := by
  obtain ⟨hkeys, hinv⟩ := h
  cases op with
  | create d cs amt em =>
      refine ⟨keysNodup_put_item store _ hkeys, ?_⟩
      intro r hr
      simp only [applyOp, put_item] at hr
      rcases List.mem_append.mp hr with hr | hr
      · exact hinv r (List.mem_of_mem_filter hr)
      · rw [List.mem_singleton.mp hr]
        intro hred
        simp [pendingRecord] at hred
  | complete sess vid t ok =>
      show tableInv (handle_stripe_webhook true checkoutSessionCompleted
        sess store vid t ok).2
      rcases webhook_state sess vid t ok store with hs | ⟨item, _, hs⟩
      · rw [hs]; exact ⟨hkeys, hinv⟩
      · rw [hs]
        refine ⟨keysNodup_map store _ (fun r => by split <;> rfl) hkeys, ?_⟩
        intro r hr
        obtain ⟨x, hx, hrx⟩ := List.mem_map.mp hr
        subst hrx
        intro hred
        by_cases hkey : x.donationId = item.donationId
        · simp [hkey] at hred
        · simp only [if_neg hkey] at hred ⊢
          exact hinv x hx hred
  | redeem vid now ts w =>
      show tableInv (validate_ticket store vid now ts w).2
      rcases validate_state store vid now ts w with hs | ⟨item, hfind, hval, _, hs⟩
      · rw [hs]; exact ⟨hkeys, hinv⟩
      · rw [hs]
        refine ⟨keysNodup_map store _ (fun r => by split <;> rfl) hkeys, ?_⟩
        intro r hr
        obtain ⟨x, hx, hrx⟩ := List.mem_map.mp hr
        subst hrx
        intro hred
        by_cases hkey : x.donationId = item.donationId
        · have hxitem : x = item :=
            List.inj_on_of_nodup_map hkeys hx
              (List.mem_of_find?_eq_some hfind) hkey
          subst hxitem
          refine ⟨?_, by simp [hkey]⟩
          simp only [if_pos hkey]
          exact (evaluate_valid_fields x now hval).1
        · simp only [if_neg hkey] at hred ⊢
          exact hinv x hx hred

/-- The table invariant holds after every operation sequence from the
empty table. -/
theorem tableInv_runOps (ops : List Op) : tableInv (runOps ops) := by
  have hfold : ∀ s, tableInv s → tableInv (ops.foldl applyOp s) := by
    induction ops with
    | nil => exact fun s hs => hs
    | cons op rest ih => exact fun s hs => ih _ (tableInv_applyOp s op hs)
  exact hfold [] ⟨by simp [keysNodup], by simp⟩

/-- C3 amended: every record reachable through createPending,
completePurchase and redeem — any sequence, including duplicate
deliveries of the completion event — satisfies: redeemed implies status
completed, and redeemed implies redeemedTime set.  (The converse
direction, redeemedTime set only if redeemed, fails under a duplicate
completion delivered after a redemption: see the counterexample.) -/
theorem reachable_redeemed_invariant (ops : List Op) (r : Record)
    (hr : r ∈ runOps ops) (hred : r.redeemed = true) :
    r.status = some completedStatus ∧ r.redeemedTime ≠ none :=
  (tableInv_runOps ops).2 r hr hred

/-- Witness for reachable_redeemed_invariant: the record reached by
create, complete at 1000, redeem at 1500. -/
theorem reachable_redeemed_invariant_witness :
    rAfterRedeem.status = some completedStatus
    ∧ rAfterRedeem.redeemedTime ≠ none :=
  reachable_redeemed_invariant opsRedeem3 rAfterRedeem (by decide) (by decide)

/-- C3 counterexample: after create, complete, redeem, and a duplicate
delivery of the completion event (opsDup), the table holds a reachable
record with redeemedTime still set (to 1600) while redeemed is false —
the completion update sets redeemed to false without clearing
redeemedTime — so the claimed redeemedAt-iff-redeemed invariant is
violated. -/
theorem duplicate_completion_breaks_redeemedTime_iff :
    ∃ r ∈ runOps opsDup, r.redeemedTime = some 1600 ∧ r.redeemed = false := by
  decide

end Donation
